import Mathlib

set_option linter.unnecessarySeqFocus false

/-!
# gobreaker: a shallow embedding of the circuit-breaker engine

This file embeds the `gobreaker` package (file `gobreaker.go`) in Lean 4 and
proves the specification claims about it.

Modelling conventions:
* `time.Time` is modelled as a `Nat` (nanoseconds since some epoch); the Go zero
  time is `0`, `t.IsZero()` is `t = 0`, `a.Before(b)` is `a < b`, and
  `t.Add(d)` for a non-negative duration is `t + d`.  Every operation that
  reads the clock (`time.Now()`) takes the current time as an explicit
  argument.
* `uint32` / `uint64` counters are `Nat`s reduced `% 2^32` / `% 2^64` at each
  increment, exactly where Go wraps.
* `time.Duration` in `Settings` is an `Int` (it is a signed `int64` of
  nanoseconds in Go); after `NewCircuitBreaker` resolves the defaults the
  stored durations are non-negative, so the breaker fields hold `Nat`s.
* Go methods mutate the receiver under a mutex; here each operation takes the
  breaker and returns the updated breaker.  The mutex itself is not modelled:
  the Lean operations are the linearized critical sections.
* The `OnStateChange` callback cannot mutate the engine (the mutex is held and
  is not reentrant), so only its presence (nil or not) is modelled, and
  `setState` additionally returns the notification it invokes, if any.
* The `IsSuccessful` classifier acts on an opaque error outside the engine;
  the engine itself (`afterRequest`) receives the already-classified `Bool`,
  exactly as in the Go signature `afterRequest(before uint64, success bool)`.
-/

namespace Gobreaker

/-- `2^32`, the modulus of Go's `uint32` counters. -/
def w32 : Nat := 4294967296

/-- `2^64`, the modulus of Go's `uint64` generation counter. -/
def w64 : Nat := 18446744073709551616

/-- The states of the circuit breaker: `StateClosed`, `StateHalfOpen`,
`StateOpen` in the Go source. -/
inductive State where
  | closed
  | halfOpen
  | opened
deriving DecidableEq, Repr

/-- The two error values the breaker can surface:
`ErrOpenState` and `ErrTooManyRequests`. -/
inductive BreakerError where
  | errOpenState
  | errTooManyRequests
deriving DecidableEq, Repr

/-- `Counts` holds the numbers of requests and their successes/failures
(five `uint32` fields). -/
structure Counts where
  Requests : Nat
  TotalSuccesses : Nat
  TotalFailures : Nat
  ConsecutiveSuccesses : Nat
  ConsecutiveFailures : Nat
deriving DecidableEq, Repr

/-- `Counts.onRequest`: `c.Requests++`. -/
def Counts.onRequest (c : Counts) : Counts :=
  { c with Requests := (c.Requests + 1) % w32 }

/-- `Counts.onSuccess`: `TotalSuccesses++; ConsecutiveSuccesses++;
ConsecutiveFailures = 0`. -/
def Counts.onSuccess (c : Counts) : Counts :=
  { c with
    TotalSuccesses := (c.TotalSuccesses + 1) % w32
    ConsecutiveSuccesses := (c.ConsecutiveSuccesses + 1) % w32
    ConsecutiveFailures := 0 }

/-- `Counts.onFailure`: `TotalFailures++; ConsecutiveFailures++;
ConsecutiveSuccesses = 0`. -/
def Counts.onFailure (c : Counts) : Counts :=
  { c with
    TotalFailures := (c.TotalFailures + 1) % w32
    ConsecutiveFailures := (c.ConsecutiveFailures + 1) % w32
    ConsecutiveSuccesses := 0 }

/-- `Counts.clear`: reset all five counters to zero. -/
def Counts.clear : Counts :=
  { Requests := 0
    TotalSuccesses := 0
    TotalFailures := 0
    ConsecutiveSuccesses := 0
    ConsecutiveFailures := 0 }

/-- `Settings` configures `CircuitBreaker`.  `MaxRequests` is a `uint32`
(a `Nat` below `2^32`), `Interval` and `Timeout` are signed `time.Duration`s,
`ReadyToTrip` is a nilable function, `OnStateChange` a nilable callback
(only nil-ness modelled). -/
structure Settings where
  Name : String
  MaxRequests : Nat
  Interval : Int
  Timeout : Int
  ReadyToTrip : Option (Counts → Bool)
  OnStateChange : Bool

/-- The circuit-breaker engine.  Configuration fields are the resolved
(immutable) values; `state`, `generation`, `counts`, `expiry` are the mutable
fields guarded by the mutex in Go. -/
structure CircuitBreaker where
  name : String
  maxRequests : Nat
  interval : Nat
  timeout : Nat
  readyToTrip : Counts → Bool
  onStateChange : Bool
  state : State
  generation : Nat
  counts : Counts
  expiry : Nat

/-- `toNewGeneration(now)`: increment the generation, clear the counts, and
set the expiry according to the (already current) state. -/
def CircuitBreaker.toNewGeneration (cb : CircuitBreaker) (now : Nat) : CircuitBreaker :=
  let cb := { cb with generation := (cb.generation + 1) % w64, counts := Counts.clear }
  match cb.state with
  | .closed =>
      if cb.interval = 0 then { cb with expiry := 0 }
      else { cb with expiry := now + cb.interval }
  | .opened => { cb with expiry := now + cb.timeout }
  | .halfOpen => { cb with expiry := 0 }

/-- A state-change notification `onStateChange(name, from, to)`. -/
structure Chg where
  name : String
  fromState : State
  toState : State
deriving DecidableEq, Repr

/-- `setState(state, now)`: no-op when the state is unchanged; otherwise assign
the new state, start a new generation, and invoke the `onStateChange` hook if
configured (the invoked notification is returned). -/
def CircuitBreaker.setState (cb : CircuitBreaker) (s : State) (now : Nat) :
    CircuitBreaker × Option Chg :=
  if cb.state = s then (cb, none)
  else
    let prev := cb.state
    let cb := { cb with state := s }
    let cb := cb.toNewGeneration now
    (cb, if cb.onStateChange then some ⟨cb.name, prev, s⟩ else none)

/-- The mutation performed by `currentState(now)` (the body of its `switch`):
a Closed breaker whose non-zero expiry has passed starts a new generation; an
Open breaker whose expiry has passed moves to HalfOpen; HalfOpen is untouched. -/
def CircuitBreaker.refreshed (cb : CircuitBreaker) (now : Nat) : CircuitBreaker :=
  match cb.state with
  | .closed =>
      if cb.expiry ≠ 0 ∧ cb.expiry < now then cb.toNewGeneration now else cb
  | .opened =>
      if cb.expiry < now then (cb.setState .halfOpen now).1 else cb
  | .halfOpen => cb

/-- `currentState(now)`: perform any due time-driven update, then return the
(possibly updated) breaker together with its state and generation. -/
def CircuitBreaker.currentState (cb : CircuitBreaker) (now : Nat) :
    CircuitBreaker × State × Nat :=
  let cb := cb.refreshed now
  (cb, cb.state, cb.generation)

/-- `beforeRequest()`: admission check.  Open rejects with `ErrOpenState`;
HalfOpen at or above `maxRequests` admitted requests rejects with
`ErrTooManyRequests`; otherwise the request counter is incremented and the
request admitted.  Returns the breaker, the generation token, and the
admission error if any. -/
def CircuitBreaker.beforeRequest (cb : CircuitBreaker) (now : Nat) :
    CircuitBreaker × Nat × Option BreakerError :=
  let r := cb.currentState now
  let cb := r.1
  let state := r.2.1
  let generation := r.2.2
  if state = .opened then (cb, generation, some .errOpenState)
  else if state = .halfOpen ∧ cb.maxRequests ≤ cb.counts.Requests then
    (cb, generation, some .errTooManyRequests)
  else
    ({ cb with counts := cb.counts.onRequest }, generation, none)

/-- The `onSuccess(state, now)` method of `CircuitBreaker`. -/
def CircuitBreaker.onSuccess (cb : CircuitBreaker) (state : State) (now : Nat) :
    CircuitBreaker :=
  match state with
  | .closed => { cb with counts := cb.counts.onSuccess }
  | .halfOpen =>
      let cb := { cb with counts := cb.counts.onSuccess }
      if cb.maxRequests ≤ cb.counts.ConsecutiveSuccesses then
        (cb.setState .closed now).1
      else cb
  | .opened => cb

/-- The `onFailure(state, now)` method of `CircuitBreaker`. -/
def CircuitBreaker.onFailure (cb : CircuitBreaker) (state : State) (now : Nat) :
    CircuitBreaker :=
  match state with
  | .closed =>
      let cb := { cb with counts := cb.counts.onFailure }
      if cb.readyToTrip cb.counts then (cb.setState .opened now).1 else cb
  | .halfOpen => (cb.setState .opened now).1
  | .opened => cb

/-- `afterRequest(before, success)`: perform the time-driven update, discard
the report if the generation no longer matches the token, otherwise apply the
success or failure rule for the current state. -/
def CircuitBreaker.afterRequest (cb : CircuitBreaker) (before : Nat)
    (success : Bool) (now : Nat) : CircuitBreaker :=
  let r := cb.currentState now
  let cb := r.1
  let state := r.2.1
  let generation := r.2.2
  if generation ≠ before then cb
  else if success then cb.onSuccess state now
  else cb.onFailure state now

/-- The `State()` accessor: runs `currentState(now)` (performing any due
time-driven transition) and returns the resulting state. -/
def CircuitBreaker.State (cb : CircuitBreaker) (now : Nat) :
    CircuitBreaker × State :=
  let r := cb.currentState now
  (r.1, r.2.1)

/-- The `Counts()` accessor: returns a copy of the stored counters, reading
the clock nowhere and mutating nothing. -/
def CircuitBreaker.Counts (cb : CircuitBreaker) : Counts :=
  cb.counts

/-- `defaultInterval = 0`. -/
def defaultInterval : Nat := 0

/-- `defaultTimeout = 60 * time.Second` (in nanoseconds). -/
def defaultTimeout : Nat := 60000000000

/-- `defaultReadyToTrip`: trip when `ConsecutiveFailures > 5`. -/
def defaultReadyToTrip (counts : Counts) : Bool :=
  5 < counts.ConsecutiveFailures

/-- `NewCircuitBreaker(st)`: allocate a zero-valued breaker (Go `new`), resolve
the configuration defaults, and call `toNewGeneration(time.Now())`. -/
def NewCircuitBreaker (st : Settings) (now : Nat) : CircuitBreaker :=
  let cb : CircuitBreaker :=
    { name := st.Name
      onStateChange := st.OnStateChange
      maxRequests := if st.MaxRequests = 0 then 1 else st.MaxRequests
      interval := if st.Interval ≤ 0 then defaultInterval else st.Interval.toNat
      timeout := if st.Timeout ≤ 0 then defaultTimeout else st.Timeout.toNat
      readyToTrip :=
        match st.ReadyToTrip with
        | none => defaultReadyToTrip
        | some f => f
      state := .closed
      generation := 0
      counts := Counts.clear
      expiry := 0 }
  cb.toNewGeneration now

/-- `TwoStepCircuitBreaker.Allow()`: forward to `beforeRequest`; on an
admission error no reporter is produced (`nil, err`), otherwise the generation
token captured by the returned reporter closure is produced.  Invoking the
reporter is `afterRequest` on that token. -/
def TwoStepAllow (cb : CircuitBreaker) (now : Nat) :
    CircuitBreaker × Option Nat × Option BreakerError :=
  let r := cb.beforeRequest now
  match r.2.2 with
  | some e => (r.1, none, some e)
  | none => (r.1, some r.2.1, none)

/-! ## Basic lemmas about the primitive operations -/

theorem tng_state (cb : CircuitBreaker) (now : Nat) :
    (cb.toNewGeneration now).state = cb.state := by
  unfold CircuitBreaker.toNewGeneration
  cases cb.state <;> dsimp <;> split <;> rfl

theorem tng_counts (cb : CircuitBreaker) (now : Nat) :
    (cb.toNewGeneration now).counts = Counts.clear := by
  unfold CircuitBreaker.toNewGeneration
  cases cb.state <;> dsimp <;> split <;> rfl

theorem tng_generation (cb : CircuitBreaker) (now : Nat) :
    (cb.toNewGeneration now).generation = (cb.generation + 1) % w64 := by
  unfold CircuitBreaker.toNewGeneration
  cases cb.state <;> dsimp <;> split <;> rfl

theorem tng_maxRequests (cb : CircuitBreaker) (now : Nat) :
    (cb.toNewGeneration now).maxRequests = cb.maxRequests := by
  unfold CircuitBreaker.toNewGeneration
  cases cb.state <;> dsimp <;> split <;> rfl

theorem tng_interval (cb : CircuitBreaker) (now : Nat) :
    (cb.toNewGeneration now).interval = cb.interval := by
  unfold CircuitBreaker.toNewGeneration
  cases cb.state <;> dsimp <;> split <;> rfl

theorem tng_timeout (cb : CircuitBreaker) (now : Nat) :
    (cb.toNewGeneration now).timeout = cb.timeout := by
  unfold CircuitBreaker.toNewGeneration
  cases cb.state <;> dsimp <;> split <;> rfl

theorem tng_readyToTrip (cb : CircuitBreaker) (now : Nat) :
    (cb.toNewGeneration now).readyToTrip = cb.readyToTrip := by
  unfold CircuitBreaker.toNewGeneration
  cases cb.state <;> dsimp <;> split <;> rfl

theorem tng_name (cb : CircuitBreaker) (now : Nat) :
    (cb.toNewGeneration now).name = cb.name := by
  unfold CircuitBreaker.toNewGeneration
  cases cb.state <;> dsimp <;> split <;> rfl

theorem tng_onStateChange (cb : CircuitBreaker) (now : Nat) :
    (cb.toNewGeneration now).onStateChange = cb.onStateChange := by
  unfold CircuitBreaker.toNewGeneration
  cases cb.state <;> dsimp <;> split <;> rfl

theorem tng_expiry (cb : CircuitBreaker) (now : Nat) :
    (cb.toNewGeneration now).expiry =
      match cb.state with
      | .closed => if cb.interval = 0 then 0 else now + cb.interval
      | .opened => now + cb.timeout
      | .halfOpen => 0 := by
  unfold CircuitBreaker.toNewGeneration
  cases cb.state <;> dsimp <;> split <;> rfl

theorem setState_self (cb : CircuitBreaker) (s : State) (now : Nat)
    (h : cb.state = s) : cb.setState s now = (cb, none) := by
  unfold CircuitBreaker.setState
  simp [h]

theorem setState_ne (cb : CircuitBreaker) (s : State) (now : Nat)
    (h : cb.state ≠ s) :
    cb.setState s now =
      (({ cb with state := s } : CircuitBreaker).toNewGeneration now,
        if cb.onStateChange then some ⟨cb.name, cb.state, s⟩ else none) := by
  unfold CircuitBreaker.setState
  simp [h, tng_name, tng_onStateChange]

theorem setState_fst_maxRequests (cb : CircuitBreaker) (s : State) (now : Nat) :
    (cb.setState s now).1.maxRequests = cb.maxRequests := by
  by_cases h : cb.state = s
  · rw [setState_self cb s now h]
  · rw [setState_ne cb s now h]; exact tng_maxRequests _ _

theorem setState_fst_interval (cb : CircuitBreaker) (s : State) (now : Nat) :
    (cb.setState s now).1.interval = cb.interval := by
  by_cases h : cb.state = s
  · rw [setState_self cb s now h]
  · rw [setState_ne cb s now h]; exact tng_interval _ _

theorem setState_fst_timeout (cb : CircuitBreaker) (s : State) (now : Nat) :
    (cb.setState s now).1.timeout = cb.timeout := by
  by_cases h : cb.state = s
  · rw [setState_self cb s now h]
  · rw [setState_ne cb s now h]; exact tng_timeout _ _

theorem setState_fst_readyToTrip (cb : CircuitBreaker) (s : State) (now : Nat) :
    (cb.setState s now).1.readyToTrip = cb.readyToTrip := by
  by_cases h : cb.state = s
  · rw [setState_self cb s now h]
  · rw [setState_ne cb s now h]; exact tng_readyToTrip _ _

theorem setState_fst_state (cb : CircuitBreaker) (s : State) (now : Nat) :
    (cb.setState s now).1.state = s := by
  by_cases h : cb.state = s
  · rw [setState_self cb s now h]; exact h
  · rw [setState_ne cb s now h]; exact tng_state _ _

theorem setState_ne_counts (cb : CircuitBreaker) (s : State) (now : Nat)
    (h : cb.state ≠ s) : (cb.setState s now).1.counts = Counts.clear := by
  rw [setState_ne cb s now h]; exact tng_counts _ _

theorem setState_ne_generation (cb : CircuitBreaker) (s : State) (now : Nat)
    (h : cb.state ≠ s) :
    (cb.setState s now).1.generation = (cb.generation + 1) % w64 := by
  rw [setState_ne cb s now h]; exact tng_generation _ _

theorem refreshed_closed_roll (cb : CircuitBreaker) (now : Nat)
    (h : cb.state = .closed) (h1 : cb.expiry ≠ 0) (h2 : cb.expiry < now) :
    cb.refreshed now = cb.toNewGeneration now := by
  unfold CircuitBreaker.refreshed
  rw [h]; dsimp; rw [if_pos ⟨h1, h2⟩]

theorem refreshed_closed_stay (cb : CircuitBreaker) (now : Nat)
    (h : cb.state = .closed) (h' : ¬(cb.expiry ≠ 0 ∧ cb.expiry < now)) :
    cb.refreshed now = cb := by
  unfold CircuitBreaker.refreshed
  rw [h]; dsimp; rw [if_neg h']

theorem refreshed_opened_trans (cb : CircuitBreaker) (now : Nat)
    (h : cb.state = .opened) (h2 : cb.expiry < now) :
    cb.refreshed now = (cb.setState .halfOpen now).1 := by
  unfold CircuitBreaker.refreshed
  rw [h]; dsimp; rw [if_pos h2]

theorem refreshed_opened_stay (cb : CircuitBreaker) (now : Nat)
    (h : cb.state = .opened) (h2 : ¬cb.expiry < now) :
    cb.refreshed now = cb := by
  unfold CircuitBreaker.refreshed
  rw [h]; dsimp; rw [if_neg h2]

theorem refreshed_halfOpen (cb : CircuitBreaker) (now : Nat)
    (h : cb.state = .halfOpen) : cb.refreshed now = cb := by
  unfold CircuitBreaker.refreshed
  rw [h]

/-- The time-driven update either changes nothing, or starts a new
generation: counts cleared and generation incremented. -/
theorem refreshed_cases (cb : CircuitBreaker) (now : Nat) :
    cb.refreshed now = cb ∨
      ((cb.refreshed now).counts = Counts.clear ∧
        (cb.refreshed now).generation = (cb.generation + 1) % w64) := by
  cases hs : cb.state
  case closed =>
    by_cases h' : cb.expiry ≠ 0 ∧ cb.expiry < now
    · right
      rw [refreshed_closed_roll cb now hs h'.1 h'.2]
      exact ⟨tng_counts _ _, tng_generation _ _⟩
    · left; exact refreshed_closed_stay cb now hs h'
  case halfOpen => left; exact refreshed_halfOpen cb now hs
  case opened =>
    by_cases h2 : cb.expiry < now
    · right
      rw [refreshed_opened_trans cb now hs h2]
      refine ⟨setState_ne_counts _ _ _ ?_, setState_ne_generation _ _ _ ?_⟩ <;>
        simp [hs]
    · left; exact refreshed_opened_stay cb now hs h2

theorem refreshed_maxRequests (cb : CircuitBreaker) (now : Nat) :
    (cb.refreshed now).maxRequests = cb.maxRequests := by
  cases hs : cb.state
  case closed =>
    by_cases h' : cb.expiry ≠ 0 ∧ cb.expiry < now
    · rw [refreshed_closed_roll cb now hs h'.1 h'.2]; exact tng_maxRequests _ _
    · rw [refreshed_closed_stay cb now hs h']
  case halfOpen => rw [refreshed_halfOpen cb now hs]
  case opened =>
    by_cases h2 : cb.expiry < now
    · rw [refreshed_opened_trans cb now hs h2]; exact setState_fst_maxRequests _ _ _
    · rw [refreshed_opened_stay cb now hs h2]

theorem refreshed_interval (cb : CircuitBreaker) (now : Nat) :
    (cb.refreshed now).interval = cb.interval := by
  cases hs : cb.state
  case closed =>
    by_cases h' : cb.expiry ≠ 0 ∧ cb.expiry < now
    · rw [refreshed_closed_roll cb now hs h'.1 h'.2]; exact tng_interval _ _
    · rw [refreshed_closed_stay cb now hs h']
  case halfOpen => rw [refreshed_halfOpen cb now hs]
  case opened =>
    by_cases h2 : cb.expiry < now
    · rw [refreshed_opened_trans cb now hs h2]; exact setState_fst_interval _ _ _
    · rw [refreshed_opened_stay cb now hs h2]

theorem refreshed_timeout (cb : CircuitBreaker) (now : Nat) :
    (cb.refreshed now).timeout = cb.timeout := by
  cases hs : cb.state
  case closed =>
    by_cases h' : cb.expiry ≠ 0 ∧ cb.expiry < now
    · rw [refreshed_closed_roll cb now hs h'.1 h'.2]; exact tng_timeout _ _
    · rw [refreshed_closed_stay cb now hs h']
  case halfOpen => rw [refreshed_halfOpen cb now hs]
  case opened =>
    by_cases h2 : cb.expiry < now
    · rw [refreshed_opened_trans cb now hs h2]; exact setState_fst_timeout _ _ _
    · rw [refreshed_opened_stay cb now hs h2]

theorem refreshed_readyToTrip (cb : CircuitBreaker) (now : Nat) :
    (cb.refreshed now).readyToTrip = cb.readyToTrip := by
  cases hs : cb.state
  case closed =>
    by_cases h' : cb.expiry ≠ 0 ∧ cb.expiry < now
    · rw [refreshed_closed_roll cb now hs h'.1 h'.2]; exact tng_readyToTrip _ _
    · rw [refreshed_closed_stay cb now hs h']
  case halfOpen => rw [refreshed_halfOpen cb now hs]
  case opened =>
    by_cases h2 : cb.expiry < now
    · rw [refreshed_opened_trans cb now hs h2]; exact setState_fst_readyToTrip _ _ _
    · rw [refreshed_opened_stay cb now hs h2]

/-- `beforeRequest` unfolded through `currentState`. -/
theorem beforeRequest_eq (cb : CircuitBreaker) (now : Nat) :
    cb.beforeRequest now =
      (if (cb.refreshed now).state = .opened then
        (cb.refreshed now, (cb.refreshed now).generation, some .errOpenState)
      else if (cb.refreshed now).state = .halfOpen ∧
          (cb.refreshed now).maxRequests ≤ (cb.refreshed now).counts.Requests then
        (cb.refreshed now, (cb.refreshed now).generation, some .errTooManyRequests)
      else
        ({ cb.refreshed now with counts := (cb.refreshed now).counts.onRequest },
          (cb.refreshed now).generation, none)) := rfl

/-- `afterRequest` unfolded through `currentState`. -/
theorem afterRequest_eq (cb : CircuitBreaker) (before : Nat) (success : Bool)
    (now : Nat) :
    cb.afterRequest before success now =
      (if (cb.refreshed now).generation ≠ before then cb.refreshed now
      else if success then
        (cb.refreshed now).onSuccess (cb.refreshed now).state now
      else (cb.refreshed now).onFailure (cb.refreshed now).state now) := rfl

/-- If the state after the time-driven update is Open, the update did
nothing: a Closed rollover stays Closed, and an expired Open breaker moves
to HalfOpen. -/
theorem refreshed_state_opened (cb : CircuitBreaker) (now : Nat)
    (h : (cb.refreshed now).state = .opened) : cb.refreshed now = cb := by
  cases hs : cb.state
  case closed =>
    by_cases h' : cb.expiry ≠ 0 ∧ cb.expiry < now
    · rw [refreshed_closed_roll cb now hs h'.1 h'.2] at h
      rw [tng_state] at h
      rw [hs] at h
      exact absurd h (by intro hx; cases hx)
    · exact refreshed_closed_stay cb now hs h'
  case halfOpen => exact refreshed_halfOpen cb now hs
  case opened =>
    by_cases h2 : cb.expiry < now
    · rw [refreshed_opened_trans cb now hs h2] at h
      rw [setState_fst_state] at h
      exact absurd h (by intro hx; cases hx)
    · exact refreshed_opened_stay cb now hs h2

/-! ## Sample breakers used to instantiate universally quantified theorems -/

/-- A breaker sitting in the Open state whose timeout has not yet expired. -/
def sampleOpen : CircuitBreaker :=
  { name := ""
    maxRequests := 1
    interval := 0
    timeout := 60
    readyToTrip := defaultReadyToTrip
    onStateChange := false
    state := .opened
    generation := 3
    counts := Counts.clear
    expiry := 100 }

/-- A breaker in HalfOpen whose probe quota is exhausted. -/
def sampleHalfOpenFull : CircuitBreaker :=
  { name := ""
    maxRequests := 2
    interval := 0
    timeout := 60
    readyToTrip := defaultReadyToTrip
    onStateChange := false
    state := .halfOpen
    generation := 4
    counts := { Requests := 2, TotalSuccesses := 1, TotalFailures := 0,
                ConsecutiveSuccesses := 1, ConsecutiveFailures := 0 }
    expiry := 0 }

/-- A Closed breaker with no interval (expiry unset). -/
def sampleClosed : CircuitBreaker :=
  { name := ""
    maxRequests := 1
    interval := 0
    timeout := 60
    readyToTrip := defaultReadyToTrip
    onStateChange := false
    state := .closed
    generation := 7
    counts := { Requests := 2, TotalSuccesses := 1, TotalFailures := 1,
                ConsecutiveSuccesses := 0, ConsecutiveFailures := 1 }
    expiry := 0 }

/-- C4: every `beforeRequest` call first performs the time-driven update and
then: in Open returns the generation with `ErrOpenState` and the breaker (and
in particular its counts) untouched; in HalfOpen with
`counts.Requests ≥ maxRequests` returns the generation with
`ErrTooManyRequests` and no counts mutation; otherwise increments
`counts.Requests` by exactly one (as a `uint32`) and returns the generation
with no error.  The error type has exactly the two values `ErrOpenState` and
`ErrTooManyRequests`, and `afterRequest` (by its very signature) surfaces no
error, so these are the only errors the breaker ever surfaces and only at
admission time. -/
theorem c4_beforeRequest_spec (cb : CircuitBreaker) (now : Nat) :
    (∀ e : BreakerError, e = .errOpenState ∨ e = .errTooManyRequests) ∧
    ((cb.refreshed now).state = .opened →
      cb.beforeRequest now =
        (cb, cb.generation, some .errOpenState) ∧ cb.refreshed now = cb) ∧
    ((cb.refreshed now).state = .halfOpen →
      (cb.refreshed now).maxRequests ≤ (cb.refreshed now).counts.Requests →
      cb.beforeRequest now =
        (cb.refreshed now, (cb.refreshed now).generation,
          some .errTooManyRequests)) ∧
    ((cb.refreshed now).state ≠ .opened →
      ¬((cb.refreshed now).state = .halfOpen ∧
          (cb.refreshed now).maxRequests ≤ (cb.refreshed now).counts.Requests) →
      cb.beforeRequest now =
        ({ cb.refreshed now with counts := (cb.refreshed now).counts.onRequest },
          (cb.refreshed now).generation, none) ∧
      ((cb.refreshed now).counts.onRequest).Requests =
        ((cb.refreshed now).counts.Requests + 1) % w32) := by
  refine ⟨fun e => by cases e <;> simp, ?_, ?_, ?_⟩
  · intro h
    have hre := refreshed_state_opened cb now h
    constructor
    · rw [beforeRequest_eq, if_pos h, hre]
    · exact hre
  · intro h hfull
    rw [beforeRequest_eq]
    rw [if_neg (by rw [h]; intro hx; cases hx), if_pos ⟨h, hfull⟩]
  · intro h hfull
    constructor
    · rw [beforeRequest_eq, if_neg h, if_neg hfull]
    · rfl

/-- Witness for C4: the three branches at concrete breakers. -/
theorem c4_beforeRequest_spec_witness :
    sampleOpen.beforeRequest 5 = (sampleOpen, 3, some .errOpenState) ∧
    sampleHalfOpenFull.beforeRequest 5 =
      (sampleHalfOpenFull, 4, some .errTooManyRequests) ∧
    sampleClosed.beforeRequest 5 =
      ({ sampleClosed with counts := sampleClosed.counts.onRequest }, 7, none) := by
  refine ⟨?_, ?_, ?_⟩
  · exact ((c4_beforeRequest_spec sampleOpen 5).2.1 rfl).1
  · exact (c4_beforeRequest_spec sampleHalfOpenFull 5).2.2.1 rfl (by decide)
  · exact ((c4_beforeRequest_spec sampleClosed 5).2.2.2 (by decide) (by decide)).1

/-- C7: `setState(newState, now)` is a no-op when the state is unchanged;
otherwise it assigns the new state, increments the generation counter by one
(as a `uint64`), zeroes all five counters, sets `expiry` to `now + interval`
when entering Closed with a positive interval (else the zero time), to
`now + timeout` when entering Open, and to the zero time when entering
HalfOpen, and invokes `onStateChange(name, previous, new)` exactly when that
hook is configured. -/
theorem c7_setState_spec (cb : CircuitBreaker) (s : State) (now : Nat) :
    (cb.state = s → cb.setState s now = (cb, none)) ∧
    (cb.state ≠ s →
      (cb.setState s now).1.state = s ∧
      (cb.setState s now).1.generation = (cb.generation + 1) % w64 ∧
      (cb.setState s now).1.counts = Counts.clear ∧
      (cb.setState s now).1.counts.Requests = 0 ∧
      (cb.setState s now).1.counts.TotalSuccesses = 0 ∧
      (cb.setState s now).1.counts.TotalFailures = 0 ∧
      (cb.setState s now).1.counts.ConsecutiveSuccesses = 0 ∧
      (cb.setState s now).1.counts.ConsecutiveFailures = 0 ∧
      (cb.setState s now).1.expiry =
        (match s with
          | .closed => if 0 < cb.interval then now + cb.interval else 0
          | .opened => now + cb.timeout
          | .halfOpen => 0) ∧
      (cb.setState s now).2 =
        (if cb.onStateChange then some ⟨cb.name, cb.state, s⟩ else none)) := by
  refine ⟨fun h => setState_self cb s now h, fun h => ?_⟩
  have hc : (cb.setState s now).1.counts = Counts.clear := setState_ne_counts cb s now h
  refine ⟨setState_fst_state cb s now, setState_ne_generation cb s now h, hc,
    by rw [hc]; rfl, by rw [hc]; rfl, by rw [hc]; rfl, by rw [hc]; rfl, by rw [hc]; rfl,
    ?_, ?_⟩
  · rw [setState_ne cb s now h]
    dsimp only
    rw [tng_expiry]
    cases s
    · dsimp only
      by_cases hi : cb.interval = 0
      · rw [if_pos hi, if_neg (by omega)]
      · rw [if_neg hi, if_pos (by omega)]
    · rfl
    · rfl
  · rw [setState_ne cb s now h]

/-- Witness for C7: a no-op `setState` and a Closed-to-Open transition at a
concrete breaker. -/
theorem c7_setState_spec_witness :
    sampleClosed.setState .closed 5 = (sampleClosed, none) ∧
    (sampleClosed.setState .opened 5).1.state = .opened ∧
    (sampleClosed.setState .opened 5).1.generation = 8 ∧
    (sampleClosed.setState .opened 5).1.counts = Counts.clear ∧
    (sampleClosed.setState .opened 5).1.expiry = 65 ∧
    (sampleClosed.setState .opened 5).2 = none := by
  have h1 := (c7_setState_spec sampleClosed .closed 5).1 rfl
  have h2 := (c7_setState_spec sampleClosed .opened 5).2 (by decide)
  exact ⟨h1, h2.1, h2.2.1, h2.2.2.1, h2.2.2.2.2.2.2.2.2.1, h2.2.2.2.2.2.2.2.2.2⟩

/-- C9: for every `Settings` value, `NewCircuitBreaker` yields a breaker whose
state is Closed, whose generation is 1, whose counters are all zero, and whose
expiry is the construction time plus the resolved interval when that interval
is positive and the zero time otherwise.  (The spec leaves the initial state
unstated; this is what the code does.) -/
theorem c9_new_breaker (st : Settings) (now : Nat) :
    (NewCircuitBreaker st now).state = .closed ∧
    (NewCircuitBreaker st now).generation = 1 ∧
    (NewCircuitBreaker st now).counts = Counts.clear ∧
    (NewCircuitBreaker st now).expiry =
      (if 0 < (NewCircuitBreaker st now).interval then
        now + (NewCircuitBreaker st now).interval
      else 0) := by
  unfold NewCircuitBreaker
  dsimp only
  refine ⟨tng_state _ _, ?_, tng_counts _ _, ?_⟩
  · rw [tng_generation]
    dsimp only
    norm_num [w64]
  · rw [tng_expiry, tng_interval]
    dsimp only
    generalize (if st.Interval ≤ 0 then defaultInterval else st.Interval.toNat) = n
    by_cases hi : n = 0
    · rw [if_pos hi, if_neg (by omega)]
    · rw [if_neg hi, if_pos (by omega)]

/-- Incrementing the generation counter modulo `2^64` never returns the
previous value. -/
theorem gen_succ_ne (g : Nat) : (g + 1) % w64 ≠ g := by
  unfold w64
  omega

theorem setState_ne_expiry (cb : CircuitBreaker) (s : State) (now : Nat)
    (h : cb.state ≠ s) :
    (cb.setState s now).1.expiry =
      match s with
      | .closed => if cb.interval = 0 then 0 else now + cb.interval
      | .opened => now + cb.timeout
      | .halfOpen => 0 := by
  rw [setState_ne cb s now h]
  dsimp only
  rw [tng_expiry]
  cases s <;> rfl

/-- A Closed breaker with a periodic interval whose expiry has passed. -/
def sampleClosedInterval : CircuitBreaker :=
  { name := ""
    maxRequests := 1
    interval := 10
    timeout := 60
    readyToTrip := defaultReadyToTrip
    onStateChange := false
    state := .closed
    generation := 7
    counts := { Requests := 3, TotalSuccesses := 2, TotalFailures := 1,
                ConsecutiveSuccesses := 2, ConsecutiveFailures := 0 }
    expiry := 11 }

/-- C10: the `Counts()` accessor returns the stored counters without the
time-driven `currentState` step: for a Closed breaker whose interval expiry
has passed it still reports the pre-reset counters (and, returning only the
`Counts` copy, touches no breaker field), whereas `State()`, `beforeRequest`
and `afterRequest` first perform the rollover (counts reset, generation
advanced). -/
theorem c10_counts_accessor (cb : CircuitBreaker) (now : Nat)
    (h : cb.state = .closed) (h1 : cb.expiry ≠ 0) (h2 : cb.expiry < now) :
    cb.Counts = cb.counts ∧
    (cb.State now).1.counts = Counts.clear ∧
    (cb.State now).1.generation = (cb.generation + 1) % w64 ∧
    (cb.beforeRequest now).1.counts = Counts.clear.onRequest ∧
    (cb.afterRequest cb.generation true now).counts = Counts.clear ∧
    (cb.afterRequest cb.generation true now).generation =
      (cb.generation + 1) % w64 := by
  have hroll : cb.refreshed now = cb.toNewGeneration now :=
    refreshed_closed_roll cb now h h1 h2
  have hstc : (cb.refreshed now).state = .closed := by rw [hroll, tng_state, h]
  have hcnt : (cb.refreshed now).counts = Counts.clear := by rw [hroll, tng_counts]
  have hgen : (cb.refreshed now).generation = (cb.generation + 1) % w64 := by
    rw [hroll, tng_generation]
  refine ⟨rfl, ?_, ?_, ?_, ?_, ?_⟩
  · show (cb.refreshed now).counts = Counts.clear
    exact hcnt
  · show (cb.refreshed now).generation = _
    exact hgen
  · rw [beforeRequest_eq, if_neg (by rw [hstc]; intro hx; cases hx),
      if_neg (by rw [hstc]; rintro ⟨hx, -⟩; cases hx)]
    dsimp only
    rw [hcnt]
  · rw [afterRequest_eq, if_pos (by rw [hgen]; exact gen_succ_ne cb.generation)]
    exact hcnt
  · rw [afterRequest_eq, if_pos (by rw [hgen]; exact gen_succ_ne cb.generation)]
    exact hgen

/-- Witness for C10 at a concrete rolled-over Closed breaker. -/
theorem c10_counts_accessor_witness :
    sampleClosedInterval.Counts =
      ⟨3, 2, 1, 2, 0⟩ ∧
    (sampleClosedInterval.State 20).1.counts = Counts.clear ∧
    (sampleClosedInterval.State 20).1.generation = 8 := by
  have h := c10_counts_accessor sampleClosedInterval 20 rfl (by decide) (by decide)
  exact ⟨h.1, h.2.1, h.2.2.1⟩

/-- C1 (amended): a report whose generation token differs from the generation
at report time leaves the breaker exactly as the time-driven `currentState`
update alone leaves it — the report itself is discarded; in particular, when
no time-driven update is due, no field of the breaker changes.  (The update
itself may legitimately roll the generation or transition Open to HalfOpen
before the report is discarded.) -/
theorem c1_stale_report_spec (cb : CircuitBreaker) (before : Nat)
    (success : Bool) (now : Nat)
    (h : (cb.refreshed now).generation ≠ before) :
    cb.afterRequest before success now = cb.refreshed now ∧
    (cb.state = .halfOpen ∨
        (cb.state = .closed ∧ (cb.expiry = 0 ∨ now ≤ cb.expiry)) ∨
        (cb.state = .opened ∧ now ≤ cb.expiry) →
      cb.afterRequest before success now = cb) := by
  have h1 : cb.afterRequest before success now = cb.refreshed now := by
    rw [afterRequest_eq, if_pos h]
  refine ⟨h1, fun hc => ?_⟩
  rw [h1]
  rcases hc with hh | ⟨hcl, hex⟩ | ⟨hop, hex⟩
  · exact refreshed_halfOpen cb now hh
  · refine refreshed_closed_stay cb now hcl ?_
    rintro ⟨hne, hlt⟩
    rcases hex with h0 | hle
    · exact hne h0
    · omega
  · exact refreshed_opened_stay cb now hop (by omega)

/-- Witness for C1: a stale report against a quiescent HalfOpen breaker
changes nothing. -/
theorem c1_stale_report_spec_witness :
    sampleHalfOpenFull.afterRequest 0 true 5 = sampleHalfOpenFull :=
  (c1_stale_report_spec sampleHalfOpenFull 0 true 5 (by decide)).2 (Or.inl rfl)

/-- The settings of the C1 counterexample: a 10ns Closed interval. -/
def c1settings : Settings := ⟨"", 0, 10, 60, none, false⟩

/-- The C1 counterexample breaker: constructed at time 1, one request admitted
at time 2 and reported successfully at time 3. -/
def c1cb : CircuitBreaker :=
  (((NewCircuitBreaker c1settings 1).beforeRequest 2).1).afterRequest 1 true 3

/-- Counterexample to C1 as stated: at time 20 the Closed interval (expiry 11)
has passed, so a report carrying the stale token 1 is discarded — the
generation at report time is 2 ≠ 1 — yet the call visibly changes the
counters (the interval rollover inside `currentState` clears them). -/
theorem c1_counterexample :
    (c1cb.refreshed 20).generation ≠ 1 ∧
    c1cb.counts = ⟨1, 1, 0, 1, 0⟩ ∧
    (c1cb.afterRequest 1 true 20).counts ≠ c1cb.counts := by
  decide

/-- C5: for a HalfOpen breaker, a success report applied to the current
generation records the success and transitions to Closed exactly when
`ConsecutiveSuccesses` then reaches `maxRequests` (the transition starting a
fresh generation); a failure report applied to the current generation
immediately transitions to Open without separately recording the failure
(the new generation's `TotalFailures` is 0) and arms the Open timeout. -/
theorem onSuccess_halfOpen (cb : CircuitBreaker) (now : Nat) :
    cb.onSuccess .halfOpen now =
      (if cb.maxRequests ≤ (cb.counts.onSuccess).ConsecutiveSuccesses then
        (({ cb with counts := cb.counts.onSuccess } : CircuitBreaker).setState
          .closed now).1
      else { cb with counts := cb.counts.onSuccess }) := rfl

theorem onFailure_halfOpen (cb : CircuitBreaker) (now : Nat) :
    cb.onFailure .halfOpen now = (cb.setState .opened now).1 := rfl

theorem c5_halfopen_report_spec (cb : CircuitBreaker) (now : Nat)
    (hs : cb.state = .halfOpen) :
    (cb.maxRequests ≤ (cb.counts.onSuccess).ConsecutiveSuccesses →
      (cb.afterRequest cb.generation true now).state = .closed ∧
      (cb.afterRequest cb.generation true now).generation =
        (cb.generation + 1) % w64 ∧
      (cb.afterRequest cb.generation true now).counts = Counts.clear) ∧
    (¬cb.maxRequests ≤ (cb.counts.onSuccess).ConsecutiveSuccesses →
      cb.afterRequest cb.generation true now =
        { cb with counts := cb.counts.onSuccess }) ∧
    ((cb.afterRequest cb.generation false now).state = .opened ∧
      (cb.afterRequest cb.generation false now).generation =
        (cb.generation + 1) % w64 ∧
      (cb.afterRequest cb.generation false now).counts = Counts.clear ∧
      (cb.afterRequest cb.generation false now).counts.TotalFailures = 0 ∧
      (cb.afterRequest cb.generation false now).expiry = now + cb.timeout) := by
  have hre : cb.refreshed now = cb := refreshed_halfOpen cb now hs
  have hsucc : cb.afterRequest cb.generation true now =
      cb.onSuccess .halfOpen now := by
    rw [afterRequest_eq, hre, hs, if_neg (by simp), if_pos rfl]
  have hfail : cb.afterRequest cb.generation false now =
      cb.onFailure .halfOpen now := by
    rw [afterRequest_eq, hre, hs, if_neg (by simp), if_neg (by simp)]
  have hsne : ({ cb with counts := cb.counts.onSuccess } : CircuitBreaker).state ≠
      State.closed := by
    show cb.state ≠ State.closed
    rw [hs]; intro hx; cases hx
  have hone : cb.state ≠ State.opened := by rw [hs]; intro hx; cases hx
  refine ⟨?_, ?_, ?_⟩
  · intro hmax
    rw [hsucc, onSuccess_halfOpen, if_pos hmax]
    exact ⟨setState_fst_state _ _ _, setState_ne_generation _ _ _ hsne,
      setState_ne_counts _ _ _ hsne⟩
  · intro hmax
    rw [hsucc, onSuccess_halfOpen, if_neg hmax]
  · rw [hfail, onFailure_halfOpen]
    refine ⟨setState_fst_state _ _ _, setState_ne_generation _ _ _ hone,
      setState_ne_counts _ _ _ hone, ?_, ?_⟩
    · rw [setState_ne_counts _ _ _ hone]; rfl
    · rw [setState_ne_expiry _ _ _ hone]

/-- Witness for C5: second consecutive success closes the probe window of
`sampleHalfOpenFull`; a failure reopens it with a clean generation. -/
theorem c5_halfopen_report_spec_witness :
    (sampleHalfOpenFull.afterRequest 4 true 5).state = .closed ∧
    (sampleHalfOpenFull.afterRequest 4 false 5).state = .opened ∧
    (sampleHalfOpenFull.afterRequest 4 false 5).counts.TotalFailures = 0 := by
  have h := c5_halfopen_report_spec sampleHalfOpenFull 5 rfl
  exact ⟨(h.1 (by decide)).1, h.2.2.1, h.2.2.2.2.2.1⟩

/-- C3 (amended): for a breaker that transitioned to Open at time `T` (so its
expiry is `T + timeout`), every admission attempt at a time `now ≤ T + timeout`
— i.e. strictly before, or exactly at, the deadline — is rejected with
`ErrOpenState` and changes nothing; the first admission attempt strictly after
`T + timeout` first transitions the observed state to HalfOpen (starting a new
generation) and only then evaluates the admission decision, which admits the
request. -/
theorem c3_open_timeout_spec (cb : CircuitBreaker) (T now : Nat)
    (hs : cb.state = .opened) (he : cb.expiry = T + cb.timeout)
    (hm : 1 ≤ cb.maxRequests) :
    (now ≤ T + cb.timeout →
      cb.beforeRequest now = (cb, cb.generation, some .errOpenState)) ∧
    (T + cb.timeout < now →
      (cb.refreshed now).state = .halfOpen ∧
      (cb.beforeRequest now).1.state = .halfOpen ∧
      (cb.beforeRequest now).2.2 = none ∧
      (cb.beforeRequest now).1.counts.Requests = 1 ∧
      (cb.beforeRequest now).2.1 = (cb.generation + 1) % w64) := by
  constructor
  · intro hle
    have hstay : cb.refreshed now = cb :=
      refreshed_opened_stay cb now hs (by omega)
    rw [beforeRequest_eq, hstay, if_pos hs]
  · intro hlt
    have hexp : cb.expiry < now := by omega
    have htr := refreshed_opened_trans cb now hs hexp
    have hone : cb.state ≠ State.halfOpen := by rw [hs]; intro hx; cases hx
    have hstate : (cb.refreshed now).state = .halfOpen := by
      rw [htr]; exact setState_fst_state _ _ _
    have hcnt : (cb.refreshed now).counts = Counts.clear := by
      rw [htr]; exact setState_ne_counts _ _ _ hone
    have hgen : (cb.refreshed now).generation = (cb.generation + 1) % w64 := by
      rw [htr]; exact setState_ne_generation _ _ _ hone
    have hmx : (cb.refreshed now).maxRequests = cb.maxRequests :=
      refreshed_maxRequests cb now
    have hbr : cb.beforeRequest now =
        ({ cb.refreshed now with counts := (cb.refreshed now).counts.onRequest },
          (cb.refreshed now).generation, none) := by
      rw [beforeRequest_eq, if_neg (by rw [hstate]; intro hx; cases hx),
        if_neg ?_]
      rintro ⟨-, hle⟩
      rw [hcnt, hmx] at hle
      rw [show Counts.clear.Requests = 0 from rfl] at hle
      omega
    refine ⟨hstate, ?_, ?_, ?_, ?_⟩
    · rw [hbr]; exact hstate
    · rw [hbr]
    · rw [hbr]
      show ((cb.refreshed now).counts.onRequest).Requests = 1
      rw [hcnt]
      decide
    · rw [hbr]; exact hgen

/-- Witness for C3: `sampleOpen` tripped at `T = 40` with timeout 60 rejects
at time 80 and admits through HalfOpen at time 101. -/
theorem c3_open_timeout_spec_witness :
    sampleOpen.beforeRequest 80 = (sampleOpen, 3, some .errOpenState) ∧
    (sampleOpen.beforeRequest 101).1.state = .halfOpen ∧
    (sampleOpen.beforeRequest 101).2.2 = none := by
  have h1 := c3_open_timeout_spec sampleOpen 40 80 rfl rfl (by decide)
  have h2 := c3_open_timeout_spec sampleOpen 40 101 rfl rfl (by decide)
  exact ⟨h1.1 (by decide), (h2.2 (by decide)).2.1, (h2.2 (by decide)).2.2.1⟩

/-- Settings of the C3 counterexample: trip on the first failure, 60ns
timeout. -/
def c3settings : Settings :=
  ⟨"", 1, 0, 60, some (fun c => c.ConsecutiveFailures != 0), false⟩

/-- The C3 counterexample breaker: admitted at time 2, failure reported at
time 3, hence Open with expiry `3 + 60 = 63`. -/
def c3cb : CircuitBreaker :=
  (((NewCircuitBreaker c3settings 1).beforeRequest 2).1).afterRequest 1 false 3

/-- Counterexample to C3 as stated: the breaker transitioned to Open at
`T = 3` with timeout 60, yet the admission attempt exactly at `T + 60 = 63`
does *not* transition to HalfOpen — the strict `expiry.Before(now)` check
leaves the state Open and the attempt is rejected with `ErrOpenState`. -/
theorem c3_counterexample :
    c3cb.state = .opened ∧
    c3cb.timeout = 60 ∧
    c3cb.expiry = 3 + 60 ∧
    (c3cb.refreshed 63).state = .opened ∧
    (c3cb.beforeRequest 63).2.2 = some .errOpenState ∧
    (c3cb.beforeRequest 63).1.state = .opened ∧
    (c3cb.beforeRequest 64).1.state = .halfOpen := by
  decide

/-- `onFailure` in the Closed state, unfolded. -/
theorem onFailure_closed (cb : CircuitBreaker) (now : Nat) :
    cb.onFailure .closed now =
      (if cb.readyToTrip (cb.counts.onFailure) then
        (({ cb with counts := cb.counts.onFailure } : CircuitBreaker).setState
          .opened now).1
      else { cb with counts := cb.counts.onFailure }) := rfl

/-- `executeFail`: the synchronous facade `Execute` around a failing request —
admission, then a failure report with the captured token (no report when the
admission failed). -/
def executeFail (cb : CircuitBreaker) (now : Nat) : CircuitBreaker :=
  let r := cb.beforeRequest now
  match r.2.2 with
  | some _ => r.1
  | none => r.1.afterRequest r.2.1 false now

/-- The C6 trace: a breaker constructed from default (zero-valued) settings,
fed `n` consecutive failing executions. -/
def c6cb : Nat → CircuitBreaker
  | 0 => NewCircuitBreaker ⟨"", 0, 0, 0, none, false⟩ 1
  | n + 1 => executeFail (c6cb n) 1

/-- C6: with the default `readyToTrip` (nil `ReadyToTrip` resolves to
`ConsecutiveFailures > 5`), a failure report applied in Closed records the
failure and transitions to Open exactly when the updated consecutive-failure
count exceeds 5; concretely, 5 consecutive failing executions leave the
default breaker Closed (with `ConsecutiveFailures = 5`) and the 6th trips it
to Open. -/
theorem c6_default_trip_spec (cb : CircuitBreaker) (now : Nat)
    (hs : cb.state = .closed) (he : cb.expiry = 0)
    (hrt : cb.readyToTrip = defaultReadyToTrip)
    (hcf : cb.counts.ConsecutiveFailures + 1 < w32) :
    ((cb.afterRequest cb.generation false now).state = .opened ↔
      5 < cb.counts.ConsecutiveFailures + 1) ∧
    (¬5 < cb.counts.ConsecutiveFailures + 1 →
      cb.afterRequest cb.generation false now =
        { cb with counts := cb.counts.onFailure }) ∧
    (5 < cb.counts.ConsecutiveFailures + 1 →
      (cb.afterRequest cb.generation false now).counts = Counts.clear ∧
      (cb.afterRequest cb.generation false now).generation =
        (cb.generation + 1) % w64 ∧
      (cb.afterRequest cb.generation false now).expiry = now + cb.timeout) ∧
    ((c6cb 5).state = .closed ∧
      (c6cb 5).counts.ConsecutiveFailures = 5 ∧
      (c6cb 5).counts.TotalFailures = 5 ∧
      (c6cb 6).state = .opened) := by
  have hre : cb.refreshed now = cb := by
    refine refreshed_closed_stay cb now hs ?_
    rintro ⟨hne, -⟩
    exact hne he
  have hfail : cb.afterRequest cb.generation false now =
      cb.onFailure .closed now := by
    rw [afterRequest_eq, hre, hs, if_neg (by simp), if_neg (by simp)]
  have hcfeq : (cb.counts.onFailure).ConsecutiveFailures =
      cb.counts.ConsecutiveFailures + 1 := by
    show (cb.counts.ConsecutiveFailures + 1) % w32 = _
    exact Nat.mod_eq_of_lt hcf
  have hcond : (cb.readyToTrip (cb.counts.onFailure) = true) ↔
      5 < cb.counts.ConsecutiveFailures + 1 := by
    rw [hrt]
    unfold defaultReadyToTrip
    rw [hcfeq]
    simp
  have hone : ({ cb with counts := cb.counts.onFailure } : CircuitBreaker).state ≠
      State.opened := by
    show cb.state ≠ State.opened
    rw [hs]; intro hx; cases hx
  refine ⟨?_, ?_, ?_, by decide⟩
  · constructor
    · intro hop
      by_contra hlt
      rw [hfail, onFailure_closed, if_neg (by rw [hcond]; exact hlt)] at hop
      rw [show ({ cb with counts := cb.counts.onFailure } :
          CircuitBreaker).state = cb.state from rfl, hs] at hop
      cases hop
    · intro hlt
      rw [hfail, onFailure_closed, if_pos (hcond.mpr hlt)]
      exact setState_fst_state _ _ _
  · intro hlt
    rw [hfail, onFailure_closed, if_neg (by rw [hcond]; exact hlt)]
  · intro hlt
    rw [hfail, onFailure_closed, if_pos (hcond.mpr hlt)]
    refine ⟨setState_ne_counts _ _ _ hone, setState_ne_generation _ _ _ hone, ?_⟩
    rw [setState_ne_expiry _ _ _ hone]

/-- Witness for C6: the 6th consecutive failure report (on the breaker that
has already absorbed 5) trips the default breaker to Open. -/
theorem c6_default_trip_spec_witness :
    ((c6cb 5).afterRequest (c6cb 5).generation false 1).state = .opened := by
  have h := c6_default_trip_spec (c6cb 5) 1 rfl rfl rfl (by decide)
  exact h.1.mpr (by decide)

/-! ## Traces of public operations

The engine's public surface reduces to `beforeRequest`, `afterRequest`
(reachable only through `Execute` and the reporter closure of
`TwoStepCircuitBreaker.Allow`, hence only with a previously issued generation
token) and the accessors.  A trace replays any interleaving of these. -/

/-- One public operation: an admission attempt (whose issued token, if any, is
retained), an invocation of the reporter closure bound to the `i`-th issued
token, or a `State()` query (which performs the time-driven update).
`Counts()` and `Name()` are pure and need no event. -/
inductive Event where
  | before (now : Nat)
  | report (i : Nat) (success : Bool) (now : Nat)
  | stateQuery (now : Nat)

/-- A breaker together with the generation tokens issued so far, each flagged
with whether its reporter has already been invoked. -/
structure RunState where
  cb : CircuitBreaker
  toks : List (Nat × Bool)

/-- Apply one public operation.  A `report` on a token that was never issued
does nothing (no such closure exists); a `report` on an issued token always
forwards to `afterRequest`, even if the reporter was already invoked —
calling the reporter more than once is permitted by the engine. -/
def step (s : RunState) : Event → RunState
  | .before now =>
      let r := s.cb.beforeRequest now
      match r.2.2 with
      | none => ⟨r.1, s.toks ++ [(r.2.1, false)]⟩
      | some _ => ⟨r.1, s.toks⟩
  | .report i success now =>
      match s.toks[i]? with
      | none => s
      | some t => ⟨s.cb.afterRequest t.1 success now, s.toks.set i (t.1, true)⟩
  | .stateQuery now => ⟨(s.cb.currentState now).1, s.toks⟩

/-- Replay a trace of public operations. -/
def run (s : RunState) (tr : List Event) : RunState := tr.foldl step s

/-- The run state right after `NewCircuitBreaker st` at time `now`. -/
def initRS (st : Settings) (now : Nat) : RunState :=
  ⟨NewCircuitBreaker st now, []⟩

/-! ## C8: the HalfOpen probe quota -/

/-- The C8 invariant: in HalfOpen the request counter never exceeds
`maxRequests`. -/
def inv8 (cb : CircuitBreaker) : Prop :=
  cb.state = .halfOpen → cb.counts.Requests ≤ cb.maxRequests

theorem inv8_tng (cb : CircuitBreaker) (now : Nat) :
    inv8 (cb.toNewGeneration now) := by
  intro _
  rw [tng_counts, tng_maxRequests]
  exact Nat.zero_le _

theorem inv8_setState (cb : CircuitBreaker) (s : State) (now : Nat)
    (h : inv8 cb) : inv8 (cb.setState s now).1 := by
  by_cases hst : cb.state = s
  · rw [setState_self cb s now hst]; exact h
  · rw [setState_ne cb s now hst]; exact inv8_tng _ _

theorem inv8_refreshed (cb : CircuitBreaker) (now : Nat) (h : inv8 cb) :
    inv8 (cb.refreshed now) := by
  cases hs : cb.state
  case closed =>
    by_cases h' : cb.expiry ≠ 0 ∧ cb.expiry < now
    · rw [refreshed_closed_roll cb now hs h'.1 h'.2]; exact inv8_tng _ _
    · rw [refreshed_closed_stay cb now hs h']; exact h
  case halfOpen => rw [refreshed_halfOpen cb now hs]; exact h
  case opened =>
    by_cases h2 : cb.expiry < now
    · rw [refreshed_opened_trans cb now hs h2]; exact inv8_setState _ _ _ h
    · rw [refreshed_opened_stay cb now hs h2]; exact h

theorem inv8_before (cb : CircuitBreaker) (now : Nat) (h : inv8 cb) :
    inv8 (cb.beforeRequest now).1 := by
  have h1 : inv8 (cb.refreshed now) := inv8_refreshed cb now h
  rw [beforeRequest_eq]
  by_cases ho : (cb.refreshed now).state = .opened
  · rw [if_pos ho]; exact h1
  · rw [if_neg ho]
    by_cases hf : (cb.refreshed now).state = .halfOpen ∧
        (cb.refreshed now).maxRequests ≤ (cb.refreshed now).counts.Requests
    · rw [if_pos hf]; exact h1
    · rw [if_neg hf]
      intro hs
      have hs' : (cb.refreshed now).state = .halfOpen := hs
      have hlt : (cb.refreshed now).counts.Requests <
          (cb.refreshed now).maxRequests := by
        rcases Nat.lt_or_ge (cb.refreshed now).counts.Requests
            (cb.refreshed now).maxRequests with hx | hx
        · exact hx
        · exact absurd ⟨hs', hx⟩ hf
      show ((cb.refreshed now).counts.onRequest).Requests ≤
        (cb.refreshed now).maxRequests
      calc ((cb.refreshed now).counts.onRequest).Requests
          ≤ (cb.refreshed now).counts.Requests + 1 := Nat.mod_le _ _
        _ ≤ (cb.refreshed now).maxRequests := hlt

theorem inv8_onSuccess (cb : CircuitBreaker) (now : Nat) (h : inv8 cb) :
    inv8 (cb.onSuccess cb.state now) := by
  cases hs : cb.state
  case closed =>
    intro hx
    have : cb.state = .halfOpen := hx
    rw [hs] at this
    cases this
  case halfOpen =>
    rw [onSuccess_halfOpen]
    by_cases hc : cb.maxRequests ≤ (cb.counts.onSuccess).ConsecutiveSuccesses
    · rw [if_pos hc]
      refine inv8_setState _ _ _ ?_
      intro _
      exact h hs
    · rw [if_neg hc]
      intro _
      exact h hs
  case opened => intro hx; exact h hx

theorem inv8_onFailure (cb : CircuitBreaker) (now : Nat) (h : inv8 cb) :
    inv8 (cb.onFailure cb.state now) := by
  cases hs : cb.state
  case closed =>
    rw [onFailure_closed]
    by_cases hc : cb.readyToTrip (cb.counts.onFailure) = true
    · rw [if_pos hc]
      refine inv8_setState _ _ _ ?_
      intro hx
      have : cb.state = .halfOpen := hx
      rw [hs] at this
      cases this
    · rw [if_neg hc]
      intro hx
      have : cb.state = .halfOpen := hx
      rw [hs] at this
      cases this
  case halfOpen =>
    rw [onFailure_halfOpen]
    refine inv8_setState _ _ _ ?_
    intro _
    exact h hs
  case opened => intro hx; exact h hx

theorem inv8_after (cb : CircuitBreaker) (before : Nat) (success : Bool)
    (now : Nat) (h : inv8 cb) : inv8 (cb.afterRequest before success now) := by
  have h1 : inv8 (cb.refreshed now) := inv8_refreshed cb now h
  rw [afterRequest_eq]
  by_cases hg : (cb.refreshed now).generation ≠ before
  · rw [if_pos hg]; exact h1
  · rw [if_neg hg]
    cases success
    · simp only [Bool.false_eq_true, if_false]
      exact inv8_onFailure (cb.refreshed now) now h1
    · simp only [if_true]
      exact inv8_onSuccess (cb.refreshed now) now h1

theorem inv8_step (s : RunState) (e : Event) (h : inv8 s.cb) :
    inv8 (step s e).cb := by
  cases e
  case before now =>
    show inv8 (match (s.cb.beforeRequest now).2.2 with
      | none => (⟨(s.cb.beforeRequest now).1, _⟩ : RunState)
      | some _ => ⟨(s.cb.beforeRequest now).1, s.toks⟩).cb
    rcases hm : (s.cb.beforeRequest now).2.2 with - | e <;>
      exact inv8_before s.cb now h
  case report i success now =>
    show inv8 (match s.toks[i]? with
      | none => s
      | some t => (⟨s.cb.afterRequest t.1 success now, s.toks.set i (t.1, true)⟩
          : RunState)).cb
    rcases hm : s.toks[i]? with - | t
    · exact h
    · exact inv8_after s.cb t.1 success now h
  case stateQuery now =>
    exact inv8_refreshed s.cb now h

theorem inv8_run (tr : List Event) : ∀ s : RunState, inv8 s.cb →
    inv8 (run s tr).cb := by
  induction tr with
  | nil => intro s h; exact h
  | cons e tr ih =>
      intro s h
      exact ih (step s e) (inv8_step s e h)

theorem inv8_init (st : Settings) (now : Nat) : inv8 (initRS st now).cb := by
  intro hx
  have hst : (NewCircuitBreaker st now).state = .closed := by
    unfold NewCircuitBreaker
    dsimp only
    exact tng_state _ _
  have : State.closed = State.halfOpen := by rw [← hst]; exact hx
  cases this

/-- C8: in every reachable state of the breaker, HalfOpen implies that the
admitted-request counter is at most `maxRequests`; and whenever the state
after the time-driven update is HalfOpen with `Requests ≥ maxRequests`, the
admission is rejected with `ErrTooManyRequests` without touching the counts,
until a transition out of HalfOpen occurs. -/
theorem c8_halfopen_quota_spec :
    (∀ (st : Settings) (now0 : Nat) (tr : List Event),
      (run (initRS st now0) tr).cb.state = .halfOpen →
      (run (initRS st now0) tr).cb.counts.Requests ≤
        (run (initRS st now0) tr).cb.maxRequests) ∧
    (∀ (cb : CircuitBreaker) (now : Nat),
      (cb.refreshed now).state = .halfOpen →
      (cb.refreshed now).maxRequests ≤ (cb.refreshed now).counts.Requests →
      cb.beforeRequest now =
        (cb.refreshed now, (cb.refreshed now).generation,
          some .errTooManyRequests)) := by
  constructor
  · intro st now0 tr
    exact inv8_run tr (initRS st now0) (inv8_init st now0)
  · intro cb now h hfull
    rw [beforeRequest_eq, if_neg (by rw [h]; intro hx; cases hx),
      if_pos ⟨h, hfull⟩]

/-- Witness for C8: a trace that trips the breaker and waits out the Open
timeout ends HalfOpen within quota; a saturated HalfOpen breaker rejects. -/
theorem c8_halfopen_quota_spec_witness :
    (run (initRS c3settings 1)
        [.before 2, .report 0 false 3, .stateQuery 70]).cb.counts.Requests ≤
      (run (initRS c3settings 1)
        [.before 2, .report 0 false 3, .stateQuery 70]).cb.maxRequests ∧
    sampleHalfOpenFull.beforeRequest 5 =
      (sampleHalfOpenFull, 4, some .errTooManyRequests) := by
  constructor
  · exact c8_halfopen_quota_spec.1 c3settings 1
      [.before 2, .report 0 false 3, .stateQuery 70] (by decide)
  · exact c8_halfopen_quota_spec.2 sampleHalfOpenFull 5 rfl (by decide)

/-! ## C2: the counts inequality under the at-most-once reporting discipline -/

/-- The number of issued, not-yet-reported tokens that carry generation `g`. -/
def countPending (toks : List (Nat × Bool)) (g : Nat) : Nat :=
  match toks with
  | [] => 0
  | t :: ts => (if t.2 = false ∧ t.1 = g then 1 else 0) + countPending ts g

theorem countPending_append (ts : List (Nat × Bool)) (t : Nat × Bool) (g : Nat) :
    countPending (ts ++ [t]) g =
      countPending ts g + (if t.2 = false ∧ t.1 = g then 1 else 0) := by
  induction ts with
  | nil => show _ + 0 = 0 + _ ; omega
  | cons u ts ih =>
      show (if u.2 = false ∧ u.1 = g then 1 else 0) + countPending (ts ++ [t]) g = _
      rw [ih]
      show _ = (if u.2 = false ∧ u.1 = g then 1 else 0) + countPending ts g + _
      omega

theorem countPending_zero (ts : List (Nat × Bool)) (g : Nat)
    (h : ∀ t ∈ ts, t.1 ≠ g) : countPending ts g = 0 := by
  induction ts with
  | nil => rfl
  | cons u ts ih =>
      show (if u.2 = false ∧ u.1 = g then 1 else 0) + countPending ts g = 0
      rw [if_neg (by rintro ⟨-, h2⟩; exact h u (by simp) h2),
        ih (fun t ht => h t (by simp [ht]))]

theorem countPending_cons (t : Nat × Bool) (ts : List (Nat × Bool)) (g : Nat) :
    countPending (t :: ts) g =
      (if t.2 = false ∧ t.1 = g then 1 else 0) + countPending ts g := rfl

theorem countPending_set (ts : List (Nat × Bool)) (i : Nat) (g0 g : Nat)
    (h : ts[i]? = some (g0, false)) :
    countPending ts g =
      countPending (ts.set i (g0, true)) g + (if g0 = g then 1 else 0) := by
  induction ts generalizing i with
  | nil => simp at h
  | cons u ts ih =>
      cases i with
      | zero =>
          have hu : u = (g0, false) := by simpa using h
          subst hu
          rw [show (((g0, false) :: ts).set 0 ((g0, true) : Nat × Bool)) =
              (g0, true) :: ts from rfl, countPending_cons, countPending_cons]
          by_cases hg : g0 = g <;> simp [hg] <;> omega
      | succ i =>
          have h' : ts[i]? = some (g0, false) := by simpa using h
          rw [show (((u :: ts).set (i + 1) ((g0, true) : Nat × Bool))) =
              u :: ts.set i (g0, true) from rfl, countPending_cons,
            countPending_cons, ih i h']
          omega

/-- Whether the reporter of the `i`-th issued token has already been
invoked. -/
def usedAt (s : RunState) (i : Nat) : Bool :=
  match s.toks[i]? with
  | some (_, true) => true
  | _ => false

/-- The per-event guard of the discipline: a `report` may only target a
token whose reporter has not been invoked yet. -/
def evGuard (s : RunState) : Event → Bool
  | .report i _ _ => !usedAt s i
  | _ => true

/-- The at-most-once reporting discipline along a trace: no `report` event
invokes a reporter that has already been invoked.  (A missing report — a token
never reported — is always permitted.) -/
def disc : RunState → List Event → Bool
  | _, [] => true
  | s, e :: tr => evGuard s e && disc (step s e) tr

/-- The inductive invariant behind C2, after `k` public operations:
the counters are bounded by `k` (so no `uint32` wrap has occurred), the
successes and failures reported in the current generation plus the tokens of
the current generation still awaiting their report never exceed the admitted
requests, the generation counter is bounded by `2k + 1` (so no `uint64` wrap),
and every issued token carries a generation no newer than the current one. -/
structure Inv2 (s : RunState) (k : Nat) : Prop where
  hR : s.cb.counts.Requests ≤ k
  hTS : s.cb.counts.TotalSuccesses ≤ k
  hTF : s.cb.counts.TotalFailures ≤ k
  hmain : s.cb.counts.TotalSuccesses + s.cb.counts.TotalFailures +
      countPending s.toks s.cb.generation ≤ s.cb.counts.Requests
  hgen : s.cb.generation ≤ 2 * k + 1
  htoks : ∀ t ∈ s.toks, t.1 ≤ s.cb.generation

theorem inv2_mono (s : RunState) (k k' : Nat) (h : Inv2 s k) (hk : k ≤ k') :
    Inv2 s k' := by
  refine ⟨?_, ?_, ?_, h.hmain, ?_, h.htoks⟩ <;> · have := h.hR; have := h.hTS
                                                  have := h.hTF; have := h.hgen
                                                  omega

theorem inv2_of_cleared (cb' : CircuitBreaker) (toks' : List (Nat × Bool))
    (k g : Nat) (hc : cb'.counts = Counts.clear) (hg : cb'.generation = g + 1)
    (hgb : g + 1 ≤ 2 * (k + 1) + 1) (htoks : ∀ t ∈ toks', t.1 ≤ g) :
    Inv2 ⟨cb', toks'⟩ (k + 1) := by
  have h0 : countPending toks' (g + 1) = 0 :=
    countPending_zero _ _ (fun t ht => by have := htoks t ht; omega)
  refine ⟨?_, ?_, ?_, ?_, ?_, ?_⟩
  · rw [hc]; exact Nat.zero_le _
  · rw [hc]; exact Nat.zero_le _
  · rw [hc]; exact Nat.zero_le _
  · show cb'.counts.TotalSuccesses + cb'.counts.TotalFailures +
      countPending toks' cb'.generation ≤ cb'.counts.Requests
    rw [hc, hg, h0]
    decide
  · rw [hg]; exact hgb
  · intro t ht
    show t.1 ≤ cb'.generation
    rw [hg]
    have := htoks t ht
    omega

/-- Under the no-wrap bounds carried by `Inv2`, the time-driven update either
does nothing or starts generation `g + 1` with cleared counts. -/
theorem refreshed_facts (cb : CircuitBreaker) (now k : Nat)
    (hgen : cb.generation ≤ 2 * k + 1) (hk : k + 1 < w32) :
    cb.refreshed now = cb ∨
      ((cb.refreshed now).counts = Counts.clear ∧
        (cb.refreshed now).generation = cb.generation + 1) := by
  rcases refreshed_cases cb now with h | ⟨h1, h2⟩
  · exact Or.inl h
  · right
    refine ⟨h1, ?_⟩
    rw [h2]
    refine Nat.mod_eq_of_lt ?_
    simp only [w32] at hk
    simp only [w64]
    omega

theorem onSuccess_closed (cb : CircuitBreaker) (now : Nat) :
    cb.onSuccess .closed now = { cb with counts := cb.counts.onSuccess } := rfl

theorem onSuccess_opened (cb : CircuitBreaker) (now : Nat) :
    cb.onSuccess .opened now = cb := rfl

theorem onFailure_opened (cb : CircuitBreaker) (now : Nat) :
    cb.onFailure .opened now = cb := rfl

/-- The outcome of an applied success report: either the success is recorded
in place, or a transition starts a fresh generation, or (in the unreachable
Open case) nothing happens. -/
theorem onSuccess_cases (cb : CircuitBreaker) (st : State) (now : Nat)
    (hs : cb.state = st) :
    cb.onSuccess st now = { cb with counts := cb.counts.onSuccess } ∨
      ((cb.onSuccess st now).counts = Counts.clear ∧
        (cb.onSuccess st now).generation = (cb.generation + 1) % w64) ∨
      cb.onSuccess st now = cb := by
  cases st
  case closed =>
    rw [onSuccess_closed]
    exact Or.inl rfl
  case halfOpen =>
    rw [onSuccess_halfOpen]
    by_cases hc : cb.maxRequests ≤ (cb.counts.onSuccess).ConsecutiveSuccesses
    · rw [if_pos hc]
      right; left
      have hne : ({ cb with counts := cb.counts.onSuccess } :
          CircuitBreaker).state ≠ State.closed := by
        show cb.state ≠ State.closed
        rw [hs]; intro hx; cases hx
      exact ⟨setState_ne_counts _ _ _ hne, setState_ne_generation _ _ _ hne⟩
    · rw [if_neg hc]
      exact Or.inl rfl
  case opened =>
    rw [onSuccess_opened]
    exact Or.inr (Or.inr rfl)

/-- The outcome of an applied failure report: either the failure is recorded
in place, or a transition starts a fresh generation, or (in the Open case)
nothing happens. -/
theorem onFailure_cases (cb : CircuitBreaker) (st : State) (now : Nat)
    (hs : cb.state = st) :
    cb.onFailure st now = { cb with counts := cb.counts.onFailure } ∨
      ((cb.onFailure st now).counts = Counts.clear ∧
        (cb.onFailure st now).generation = (cb.generation + 1) % w64) ∨
      cb.onFailure st now = cb := by
  cases st
  case closed =>
    rw [onFailure_closed]
    by_cases hc : cb.readyToTrip (cb.counts.onFailure) = true
    · rw [if_pos hc]
      right; left
      have hne : ({ cb with counts := cb.counts.onFailure } :
          CircuitBreaker).state ≠ State.opened := by
        show cb.state ≠ State.opened
        rw [hs]; intro hx; cases hx
      exact ⟨setState_ne_counts _ _ _ hne, setState_ne_generation _ _ _ hne⟩
    · rw [if_neg hc]
      exact Or.inl rfl
  case halfOpen =>
    rw [onFailure_halfOpen]
    right; left
    have hne : cb.state ≠ State.opened := by rw [hs]; intro hx; cases hx
    exact ⟨setState_ne_counts _ _ _ hne, setState_ne_generation _ _ _ hne⟩
  case opened =>
    rw [onFailure_opened]
    exact Or.inr (Or.inr rfl)

theorem gen_succ_mod (g k : Nat) (hg : g ≤ 2 * k + 1) (hk : k + 1 < w32) :
    (g + 1) % w64 = g + 1 := by
  refine Nat.mod_eq_of_lt ?_
  simp only [w32] at hk
  simp only [w64]
  omega

theorem inv2_refresh (cb : CircuitBreaker) (toks : List (Nat × Bool))
    (now k : Nat) (h : Inv2 ⟨cb, toks⟩ k) (hk : k + 1 < w32) :
    Inv2 ⟨cb.refreshed now, toks⟩ (k + 1) := by
  have hgen : cb.generation ≤ 2 * k + 1 := h.hgen
  have htoks : ∀ t ∈ toks, t.1 ≤ cb.generation := h.htoks
  rcases refreshed_facts cb now k hgen hk with hid | ⟨hc, hg⟩
  · rw [hid]
    exact inv2_mono _ _ _ h (by omega)
  · exact inv2_of_cleared _ _ k cb.generation hc hg (by omega) htoks

theorem inv2_before_step (cb : CircuitBreaker) (toks : List (Nat × Bool))
    (now k : Nat) (h : Inv2 ⟨cb, toks⟩ k) (hk : k + 1 < w32) :
    Inv2 (step ⟨cb, toks⟩ (.before now)) (k + 1) := by
  have hR : cb.counts.Requests ≤ k := h.hR
  have hTS : cb.counts.TotalSuccesses ≤ k := h.hTS
  have hTF : cb.counts.TotalFailures ≤ k := h.hTF
  have hmain : cb.counts.TotalSuccesses + cb.counts.TotalFailures +
      countPending toks cb.generation ≤ cb.counts.Requests := h.hmain
  have hgen : cb.generation ≤ 2 * k + 1 := h.hgen
  have htoks : ∀ t ∈ toks, t.1 ≤ cb.generation := h.htoks
  by_cases ho : (cb.refreshed now).state = .opened
  · have hr : cb.beforeRequest now =
        (cb.refreshed now, (cb.refreshed now).generation, some .errOpenState) := by
      rw [beforeRequest_eq, if_pos ho]
    have hstep : step ⟨cb, toks⟩ (.before now) = ⟨cb.refreshed now, toks⟩ := by
      show (match (cb.beforeRequest now).2.2 with
        | none => (⟨(cb.beforeRequest now).1,
            toks ++ [((cb.beforeRequest now).2.1, false)]⟩ : RunState)
        | some _ => ⟨(cb.beforeRequest now).1, toks⟩) = ⟨cb.refreshed now, toks⟩
      rw [hr]
    rw [hstep]
    exact inv2_refresh cb toks now k h hk
  · by_cases hho : (cb.refreshed now).state = .halfOpen ∧
        (cb.refreshed now).maxRequests ≤ (cb.refreshed now).counts.Requests
    · have hr : cb.beforeRequest now =
          (cb.refreshed now, (cb.refreshed now).generation,
            some .errTooManyRequests) := by
        rw [beforeRequest_eq, if_neg ho, if_pos hho]
      have hstep : step ⟨cb, toks⟩ (.before now) = ⟨cb.refreshed now, toks⟩ := by
        show (match (cb.beforeRequest now).2.2 with
          | none => (⟨(cb.beforeRequest now).1,
              toks ++ [((cb.beforeRequest now).2.1, false)]⟩ : RunState)
          | some _ => ⟨(cb.beforeRequest now).1, toks⟩) = ⟨cb.refreshed now, toks⟩
        rw [hr]
      rw [hstep]
      exact inv2_refresh cb toks now k h hk
    · have hr : cb.beforeRequest now =
          ({ cb.refreshed now with counts := (cb.refreshed now).counts.onRequest },
            (cb.refreshed now).generation, none) := by
        rw [beforeRequest_eq, if_neg ho, if_neg hho]
      have hstep : step ⟨cb, toks⟩ (.before now) =
          ⟨{ cb.refreshed now with counts := (cb.refreshed now).counts.onRequest },
            toks ++ [((cb.refreshed now).generation, false)]⟩ := by
        show (match (cb.beforeRequest now).2.2 with
          | none => (⟨(cb.beforeRequest now).1,
              toks ++ [((cb.beforeRequest now).2.1, false)]⟩ : RunState)
          | some _ => ⟨(cb.beforeRequest now).1, toks⟩) = _
        rw [hr]
      rw [hstep]
      rcases refreshed_facts cb now k hgen hk with hid | ⟨hcl, hg1⟩
      · rw [hid]
        have hR1 : (cb.counts.onRequest).Requests = cb.counts.Requests + 1 := by
          show (cb.counts.Requests + 1) % w32 = _
          refine Nat.mod_eq_of_lt ?_
          have := hR
          omega
        refine ⟨?_, ?_, ?_, ?_, ?_, ?_⟩
        · show (cb.counts.onRequest).Requests ≤ k + 1
          rw [hR1]
          have := hR
          omega
        · show cb.counts.TotalSuccesses ≤ k + 1
          have := hTS; omega
        · show cb.counts.TotalFailures ≤ k + 1
          have := hTF; omega
        · show cb.counts.TotalSuccesses + cb.counts.TotalFailures +
            countPending (toks ++ [(cb.generation, false)]) cb.generation ≤
            (cb.counts.onRequest).Requests
          rw [hR1, countPending_append, if_pos ⟨rfl, rfl⟩]
          have := hmain
          omega
        · show cb.generation ≤ 2 * (k + 1) + 1
          have := hgen; omega
        · intro t ht
          show t.1 ≤ cb.generation
          rcases List.mem_append.mp ht with h1 | h2
          · exact htoks t h1
          · have : t = (cb.generation, false) := by simpa using h2
            rw [this]
      · have hRg : ((cb.refreshed now).counts.onRequest).Requests = 1 := by
          rw [hcl]
          decide
        have hp0 : countPending toks (cb.generation + 1) = 0 :=
          countPending_zero _ _
            (fun t ht => by have := htoks t ht; omega)
        refine ⟨?_, ?_, ?_, ?_, ?_, ?_⟩
        · show ((cb.refreshed now).counts.onRequest).Requests ≤ k + 1
          rw [hRg]; omega
        · show (cb.refreshed now).counts.TotalSuccesses ≤ k + 1
          rw [hcl]; exact Nat.zero_le _
        · show (cb.refreshed now).counts.TotalFailures ≤ k + 1
          rw [hcl]; exact Nat.zero_le _
        · show (cb.refreshed now).counts.TotalSuccesses +
            (cb.refreshed now).counts.TotalFailures +
            countPending (toks ++ [((cb.refreshed now).generation, false)])
              (cb.refreshed now).generation ≤
            ((cb.refreshed now).counts.onRequest).Requests
          rw [hRg, hcl, countPending_append, hg1, hp0, if_pos ⟨rfl, rfl⟩]
          decide
        · show (cb.refreshed now).generation ≤ 2 * (k + 1) + 1
          rw [hg1]
          have := hgen; omega
        · intro t ht
          show t.1 ≤ (cb.refreshed now).generation
          rw [hg1]
          rcases List.mem_append.mp ht with h1 | h2
          · have := htoks t h1; omega
          · have : t = ((cb.refreshed now).generation, false) := by simpa using h2
            rw [this, hg1]

theorem inv2_report_step (cb : CircuitBreaker) (toks : List (Nat × Bool))
    (i : Nat) (succ : Bool) (now k : Nat)
    (h : Inv2 ⟨cb, toks⟩ k) (hk : k + 1 < w32)
    (hd : usedAt ⟨cb, toks⟩ i = false) :
    Inv2 (step ⟨cb, toks⟩ (.report i succ now)) (k + 1) := by
  have hR : cb.counts.Requests ≤ k := h.hR
  have hTS : cb.counts.TotalSuccesses ≤ k := h.hTS
  have hTF : cb.counts.TotalFailures ≤ k := h.hTF
  have hmain : cb.counts.TotalSuccesses + cb.counts.TotalFailures +
      countPending toks cb.generation ≤ cb.counts.Requests := h.hmain
  have hgen : cb.generation ≤ 2 * k + 1 := h.hgen
  have htoks : ∀ t ∈ toks, t.1 ≤ cb.generation := h.htoks
  have hd' : ∀ g0 : Nat, toks[i]? = some (g0, true) → False := by
    intro g0 hm
    have hu : usedAt ⟨cb, toks⟩ i = true := by
      show (match toks[i]? with
        | some (_, true) => true
        | _ => false) = true
      rw [hm]
    rw [hd] at hu
    exact absurd hu (by decide)
  rcases hm : toks[i]? with - | t
  · have hstep : step ⟨cb, toks⟩ (.report i succ now) = ⟨cb, toks⟩ := by
      show (match toks[i]? with
        | none => (⟨cb, toks⟩ : RunState)
        | some t => ⟨cb.afterRequest t.1 succ now, toks.set i (t.1, true)⟩) = _
      rw [hm]
    rw [hstep]
    exact inv2_mono _ _ _ h (by omega)
  · obtain ⟨g0, b⟩ := t
    cases b
    case true => exact (hd' g0 hm).elim
    case false =>
    have hstep : step ⟨cb, toks⟩ (.report i succ now) =
        ⟨cb.afterRequest g0 succ now, toks.set i (g0, true)⟩ := by
      show (match toks[i]? with
        | none => (⟨cb, toks⟩ : RunState)
        | some t => ⟨cb.afterRequest t.1 succ now, toks.set i (t.1, true)⟩) = _
      rw [hm]
    rw [hstep]
    have hmem : ((g0, false) : Nat × Bool) ∈ toks := List.getElem?_mem hm
    have hg0 : g0 ≤ cb.generation := htoks _ hmem
    have ht' : ∀ t ∈ toks.set i (g0, true), t.1 ≤ cb.generation := by
      intro t ht
      rcases List.mem_or_eq_of_mem_set ht with h1 | h1
      · exact htoks t h1
      · rw [h1]; exact hg0
    have hcp := countPending_set toks i g0 cb.generation hm
    rcases refreshed_facts cb now k hgen hk with hid | ⟨hcl, hg1⟩
    · by_cases hgg : cb.generation = g0
      · rw [if_pos hgg.symm] at hcp
        cases succ
        · -- succ = false: a failure report
          have haf : cb.afterRequest g0 false now = cb.onFailure cb.state now := by
            rw [afterRequest_eq, hid, if_neg (by simp [hgg]), if_neg (by simp)]
          rw [haf]
          rcases onFailure_cases cb cb.state now rfl with hrec | ⟨hc2, hg2⟩ | hidop
          · rw [hrec]
            have hTF1 : (cb.counts.onFailure).TotalFailures =
                cb.counts.TotalFailures + 1 := by
              show (cb.counts.TotalFailures + 1) % w32 = _
              exact Nat.mod_eq_of_lt (by omega)
            refine ⟨?_, ?_, ?_, ?_, ?_, ?_⟩
            · show cb.counts.Requests ≤ k + 1
              omega
            · show cb.counts.TotalSuccesses ≤ k + 1
              omega
            · show (cb.counts.onFailure).TotalFailures ≤ k + 1
              rw [hTF1]; omega
            · show cb.counts.TotalSuccesses +
                (cb.counts.onFailure).TotalFailures +
                countPending (toks.set i (g0, true)) cb.generation ≤
                cb.counts.Requests
              rw [hTF1]
              omega
            · show cb.generation ≤ 2 * (k + 1) + 1
              omega
            · exact ht'
          · have hg2' : (cb.onFailure cb.state now).generation =
                cb.generation + 1 := by
              rw [hg2]; exact gen_succ_mod _ _ hgen hk
            exact inv2_of_cleared _ _ k cb.generation hc2 hg2' (by omega) ht'
          · rw [hidop]
            refine ⟨?_, ?_, ?_, ?_, ?_, ht'⟩
            · show cb.counts.Requests ≤ k + 1
              omega
            · show cb.counts.TotalSuccesses ≤ k + 1
              omega
            · show cb.counts.TotalFailures ≤ k + 1
              omega
            · show cb.counts.TotalSuccesses + cb.counts.TotalFailures +
                countPending (toks.set i (g0, true)) cb.generation ≤
                cb.counts.Requests
              omega
            · show cb.generation ≤ 2 * (k + 1) + 1
              omega
        · -- succ = true: a success report
          have haf : cb.afterRequest g0 true now = cb.onSuccess cb.state now := by
            rw [afterRequest_eq, hid, if_neg (by simp [hgg]), if_pos rfl]
          rw [haf]
          rcases onSuccess_cases cb cb.state now rfl with hrec | ⟨hc2, hg2⟩ | hidop
          · rw [hrec]
            have hTS1 : (cb.counts.onSuccess).TotalSuccesses =
                cb.counts.TotalSuccesses + 1 := by
              show (cb.counts.TotalSuccesses + 1) % w32 = _
              exact Nat.mod_eq_of_lt (by omega)
            refine ⟨?_, ?_, ?_, ?_, ?_, ?_⟩
            · show cb.counts.Requests ≤ k + 1
              omega
            · show (cb.counts.onSuccess).TotalSuccesses ≤ k + 1
              rw [hTS1]; omega
            · show cb.counts.TotalFailures ≤ k + 1
              omega
            · show (cb.counts.onSuccess).TotalSuccesses +
                cb.counts.TotalFailures +
                countPending (toks.set i (g0, true)) cb.generation ≤
                cb.counts.Requests
              rw [hTS1]
              omega
            · show cb.generation ≤ 2 * (k + 1) + 1
              omega
            · exact ht'
          · have hg2' : (cb.onSuccess cb.state now).generation =
                cb.generation + 1 := by
              rw [hg2]; exact gen_succ_mod _ _ hgen hk
            exact inv2_of_cleared _ _ k cb.generation hc2 hg2' (by omega) ht'
          · rw [hidop]
            refine ⟨?_, ?_, ?_, ?_, ?_, ht'⟩
            · show cb.counts.Requests ≤ k + 1
              omega
            · show cb.counts.TotalSuccesses ≤ k + 1
              omega
            · show cb.counts.TotalFailures ≤ k + 1
              omega
            · show cb.counts.TotalSuccesses + cb.counts.TotalFailures +
                countPending (toks.set i (g0, true)) cb.generation ≤
                cb.counts.Requests
              omega
            · show cb.generation ≤ 2 * (k + 1) + 1
              omega
      · rw [if_neg (fun hx => hgg hx.symm)] at hcp
        have haf : cb.afterRequest g0 succ now = cb := by
          rw [afterRequest_eq, hid, if_pos hgg]
        rw [haf]
        refine ⟨?_, ?_, ?_, ?_, ?_, ht'⟩
        · show cb.counts.Requests ≤ k + 1
          omega
        · show cb.counts.TotalSuccesses ≤ k + 1
          omega
        · show cb.counts.TotalFailures ≤ k + 1
          omega
        · show cb.counts.TotalSuccesses + cb.counts.TotalFailures +
            countPending (toks.set i (g0, true)) cb.generation ≤
            cb.counts.Requests
          omega
        · show cb.generation ≤ 2 * (k + 1) + 1
          omega
    · have haf : cb.afterRequest g0 succ now = cb.refreshed now := by
        rw [afterRequest_eq, if_pos (by rw [hg1]; omega)]
      rw [haf]
      exact inv2_of_cleared _ _ k cb.generation hcl hg1 (by omega) ht'

theorem inv2_step (s : RunState) (e : Event) (k : Nat)
    (h : Inv2 s k) (hk : k + 1 < w32)
    (hd : ∀ i succ now, e = .report i succ now → usedAt s i = false) :
    Inv2 (step s e) (k + 1) := by
  obtain ⟨cb, toks⟩ := s
  cases e
  case before now => exact inv2_before_step cb toks now k h hk
  case report i succ now =>
    exact inv2_report_step cb toks i succ now k h hk (hd i succ now rfl)
  case stateQuery now => exact inv2_refresh cb toks now k h hk

theorem inv2_run (tr : List Event) : ∀ (s : RunState) (k : Nat),
    Inv2 s k → k + tr.length < w32 → disc s tr = true →
    Inv2 (run s tr) (k + tr.length) := by
  induction tr with
  | nil => intro s k h _ _; exact h
  | cons e tr ih =>
      intro s k h hk hdisc
      have hd2 : (evGuard s e && disc (step s e) tr) = true := hdisc
      obtain ⟨h1, h2⟩ := Bool.and_eq_true_iff.mp hd2
      have hk1 : k + 1 < w32 := by
        simp only [List.length_cons] at hk
        omega
      have hdd : ∀ i succ now, e = .report i succ now → usedAt s i = false := by
        intro i succ now he
        subst he
        have h1' : (!usedAt s i) = true := h1
        cases hu : usedAt s i
        · rfl
        · rw [hu] at h1'
          exact absurd h1' (by decide)
      have hstep := inv2_step s e k h hk1 hdd
      have hfin := ih (step s e) (k + 1) hstep
        (by simp only [List.length_cons] at hk; omega) h2
      have hlen : k + (e :: tr).length = k + 1 + tr.length := by
        simp only [List.length_cons]
        omega
      have hrun : run s (e :: tr) = run (step s e) tr := rfl
      rw [hrun, hlen]
      exact hfin

theorem inv2_init (st : Settings) (now : Nat) : Inv2 (initRS st now) 0 := by
  have hc : (NewCircuitBreaker st now).counts = Counts.clear := by
    unfold NewCircuitBreaker
    dsimp only
    exact tng_counts _ _
  have hg : (NewCircuitBreaker st now).generation = 1 := by
    unfold NewCircuitBreaker
    dsimp only
    rw [tng_generation]
    dsimp only
    norm_num [w64]
  refine ⟨?_, ?_, ?_, ?_, ?_, ?_⟩
  · show (NewCircuitBreaker st now).counts.Requests ≤ 0
    rw [hc]
    decide
  · show (NewCircuitBreaker st now).counts.TotalSuccesses ≤ 0
    rw [hc]
    decide
  · show (NewCircuitBreaker st now).counts.TotalFailures ≤ 0
    rw [hc]
    decide
  · show (NewCircuitBreaker st now).counts.TotalSuccesses +
      (NewCircuitBreaker st now).counts.TotalFailures +
      countPending [] (NewCircuitBreaker st now).generation ≤
      (NewCircuitBreaker st now).counts.Requests
    rw [hc,
      show countPending [] (NewCircuitBreaker st now).generation = 0 from rfl]
    decide
  · show (NewCircuitBreaker st now).generation ≤ 2 * 0 + 1
    rw [hg]
  · intro t ht
    exact absurd ht (List.not_mem_nil t)

/-- C2 (amended): after every sequence of at most `2^32 - 1` public operations
in which the reporter of each admitted request is invoked at most once, the
counters satisfy `TotalSuccesses + TotalFailures ≤ Requests`; and recording a
success zeroes `ConsecutiveFailures` while incrementing `ConsecutiveSuccesses`
and `TotalSuccesses` (as `uint32`s, leaving `Requests` untouched), and
symmetrically for a failure.  Invoking a reporter twice breaks the inequality
(see the counterexample), so the at-most-once discipline is necessary. -/
theorem c2_counts_invariant_spec :
    (∀ (st : Settings) (now0 : Nat) (tr : List Event),
      tr.length < w32 → disc (initRS st now0) tr = true →
      (run (initRS st now0) tr).cb.counts.TotalSuccesses +
        (run (initRS st now0) tr).cb.counts.TotalFailures ≤
        (run (initRS st now0) tr).cb.counts.Requests) ∧
    (∀ c : Counts,
      (c.onSuccess).ConsecutiveFailures = 0 ∧
      (c.onSuccess).ConsecutiveSuccesses = (c.ConsecutiveSuccesses + 1) % w32 ∧
      (c.onSuccess).TotalSuccesses = (c.TotalSuccesses + 1) % w32 ∧
      (c.onSuccess).Requests = c.Requests ∧
      (c.onFailure).ConsecutiveSuccesses = 0 ∧
      (c.onFailure).ConsecutiveFailures = (c.ConsecutiveFailures + 1) % w32 ∧
      (c.onFailure).TotalFailures = (c.TotalFailures + 1) % w32 ∧
      (c.onFailure).Requests = c.Requests) := by
  constructor
  · intro st now0 tr hlen hdisc
    have h := inv2_run tr (initRS st now0) 0 (inv2_init st now0)
      (by omega) hdisc
    have hm := h.hmain
    omega
  · intro c
    exact ⟨rfl, rfl, rfl, rfl, rfl, rfl, rfl, rfl⟩

/-- Witness for C2: a disciplined two-operation trace (one admission, one
report) satisfies the inequality. -/
theorem c2_counts_invariant_spec_witness :
    (run (initRS ⟨"", 0, 10, 60, none, false⟩ 1)
        [.before 2, .report 0 true 3]).cb.counts.TotalSuccesses +
      (run (initRS ⟨"", 0, 10, 60, none, false⟩ 1)
        [.before 2, .report 0 true 3]).cb.counts.TotalFailures ≤
      (run (initRS ⟨"", 0, 10, 60, none, false⟩ 1)
        [.before 2, .report 0 true 3]).cb.counts.Requests :=
  c2_counts_invariant_spec.1 ⟨"", 0, 10, 60, none, false⟩ 1
    [.before 2, .report 0 true 3] (by decide) (by decide)

/-- The C2 counterexample trace: one admitted request whose reporter is
invoked twice. -/
def c2tr : List Event := [.before 2, .report 0 true 3, .report 0 true 4]

/-- Counterexample to C2 as stated: with default settings, admitting a single
request and invoking its reporter closure twice (explicitly permitted by the
claim) yields `TotalSuccesses = 2 > Requests = 1`, violating
`TotalSuccesses + TotalFailures ≤ Requests`. -/
theorem c2_counterexample :
    (run (initRS ⟨"", 0, 0, 0, none, false⟩ 1) c2tr).cb.counts.Requests = 1 ∧
    (run (initRS ⟨"", 0, 0, 0, none, false⟩ 1) c2tr).cb.counts.TotalSuccesses
      = 2 ∧
    ¬((run (initRS ⟨"", 0, 0, 0, none, false⟩ 1) c2tr).cb.counts.TotalSuccesses
        + (run (initRS ⟨"", 0, 0, 0, none, false⟩ 1)
            c2tr).cb.counts.TotalFailures ≤
        (run (initRS ⟨"", 0, 0, 0, none, false⟩ 1)
          c2tr).cb.counts.Requests) := by
  decide

end Gobreaker
